import Mathlib

set_option maxRecDepth 40000

/-!
Shallow embedding of the GroupMe sales-bot core (sheets reconciler,
daily summary, daily reset, and the forgiving sales-message parser),
together with theorems settling the specification claims.

Leaderboard rows are lists of string cells, mirroring the sheet API:
column A is the rep name, B Today, C Week, D Month, E Lifetime,
F LastUpdate.  A missing cell and an empty cell are both modelled as
`""` (the code only ever reads cells through `row[i] || default`
or truthiness tests, where the two behave identically).
-/

namespace GroupMeBot

abbrev Row := List String

/-- JavaScript `row[i]` with a missing cell modelled as `""`. -/
def cell (r : Row) (i : Nat) : String := r.getD i ""

/-- JavaScript `s || d` for strings: the default kicks in exactly when `s` is empty. -/
def jsOr (s d : String) : String := if s = "" then d else s

/-- Decimal value of a digit character, as used by integer parsing. -/
def digitVal (c : Char) : Nat := c.toNat - 48

/-- Value of a digit string read left to right. -/
def foldVal (cs : List Char) : Nat := cs.foldl (fun a c => a * 10 + digitVal c) 0

/-- Value of a maximal leading digit run; `none` when there is no leading digit. -/
def leadDigits (cs : List Char) : Option Nat :=
  let ds := cs.takeWhile Char.isDigit
  if ds.isEmpty then none else some (foldVal ds)

/-- JavaScript `parseInt(s, 10)`: skip leading whitespace, optional sign,
then a maximal digit run (trailing junk ignored); `none` models `NaN`. -/
def jsParseIntAux : List Char → Option Int
  | [] => none
  | c :: rest =>
    if c = '-' then (leadDigits rest).map (fun (k : Nat) => -(k : Int))
    else if c = '+' then (leadDigits rest).map (fun (k : Nat) => (k : Int))
    else (leadDigits (c :: rest)).map (fun (k : Nat) => (k : Int))

def jsParseInt (s : String) : Option Int :=
  jsParseIntAux (s.toList.dropWhile Char.isWhitespace)

/-- Decimal digits of a natural number (fuel-driven so it reduces definitionally). -/
def natDigits : Nat → Nat → List Char
  | 0, _ => []
  | fuel + 1, n =>
    if n < 10 then [Nat.digitChar n]
    else natDigits fuel (n / 10) ++ [Nat.digitChar (n % 10)]

/-- JavaScript `Number.prototype.toString` on a natural value (base 10). -/
def jsNatToString (n : Nat) : String := ⟨natDigits (n + 1) n⟩

/-- JavaScript `Number.prototype.toString` on an integer value (base 10). -/
def jsIntToString (n : Int) : String :=
  if n < 0 then "-" ++ jsNatToString n.natAbs else jsNatToString n.toNat

/-- Serialization of a possibly-NaN number, as `toString` renders it. -/
def optToString : Option Int → String
  | some n => jsIntToString n
  | none => "NaN"

/-- The numeric value of a leaderboard cell exactly as the code reads it:
`parseInt(row[i] || '0', 10)`, with `none` for `NaN`. -/
def parsedCell (r : Row) (i : Nat) : Option Int := jsParseInt (jsOr (cell r i) "0")

/-- NaN-propagating addition: `x + d` where `x` may be `NaN`. -/
def optAdd (x : Option Int) (d : Int) : Option Int := x.map (fun v => v + d)

/-! ### Message parser (`parseSalesMessage`) -/

/-- Parser output, one structured sale record. -/
structure SaleEvent where
  repName : String
  todayReported : Int
  customerName : String
  installDate : String
  provider : String
  speed : String
  saleDate : String
  timestamp : String
deriving DecidableEq, Repr

/-- Splitting a character list at whitespace runs (empty pieces dropped). -/
def wsSplitAux : List Char → List Char → List (List Char)
  | [], acc => if acc.isEmpty then [] else [acc.reverse]
  | c :: rest, acc =>
    if c.isWhitespace then
      if acc.isEmpty then wsSplitAux rest [] else acc.reverse :: wsSplitAux rest []
    else wsSplitAux rest (c :: acc)

/-- Whitespace tokenization of the trimmed text (`text.trim().split(/\s+/)`):
the list of maximal whitespace-free words.  (On whitespace-only text the
JavaScript call yields `[""]` where this yields `[]`; both fail the
`tokens.length < 3` guard, so the parser's behaviour is unchanged.) -/
def jsTokens (text : String) : List String :=
  (wsSplitAux text.toList []).map (fun l => ⟨l⟩)

/-- JavaScript `/[+-]?\d+/.test(t)`: the token contains at least one digit. -/
def hasIntTest (t : String) : Bool := t.toList.any Char.isDigit

/-- Leftmost match of `/[+-]?\d+/` in a character list. -/
def firstIntMatch : List Char → Option (List Char)
  | [] => none
  | c :: rest =>
    if ((c == '+' || c == '-') && (match rest with
        | d :: _ => d.isDigit
        | [] => false)) then
      some (c :: rest.takeWhile Char.isDigit)
    else if c.isDigit then
      some ((c :: rest).takeWhile Char.isDigit)
    else
      firstIntMatch rest

/-- Leftmost match of `/[+-]?\d+/` in a string, as a string. -/
def jsFirstIntMatch (s : String) : Option String :=
  (firstIntMatch s.toList).map (fun l => ⟨l⟩)

/-- Full-string match of `/^\d{1,2}\/\d{1,2}$/`. -/
def isDateToken (s : String) : Bool :=
  match s.toList with
  | [a, '/', b] => a.isDigit && b.isDigit
  | [a, '/', b, c] => a.isDigit && b.isDigit && c.isDigit
  | [a, b, '/', c] => a.isDigit && b.isDigit && c.isDigit
  | [a, b, '/', c, d] => a.isDigit && b.isDigit && c.isDigit && d.isDigit
  | _ => false

/-- Full-string match of `/^\d+([GMgm]|Mbps|mbps)?$/`. -/
def speedTest (s : String) : Bool :=
  let cs := s.toList
  let ds := cs.takeWhile Char.isDigit
  let rest := cs.dropWhile Char.isDigit
  !ds.isEmpty &&
    (rest.isEmpty || rest == ['G'] || rest == ['M'] || rest == ['g'] || rest == ['m'] ||
      rest == "Mbps".toList || rest == "mbps".toList)

/-- JavaScript `Array.prototype.lastIndexOf`, `-1` when absent. -/
def jsLastIndexOfAux (s : String) : List String → Int → Int → Int
  | [], _, best => best
  | x :: xs, i, best => jsLastIndexOfAux s xs (i + 1) (if x = s then i else best)

def jsLastIndexOf (l : List String) (s : String) : Int := jsLastIndexOfAux s l 0 (-1)

/-- JavaScript `Array.prototype.slice(a, b)` on token lists (`0 ≤ a ≤ b` uses). -/
def jsSlice (l : List String) (a b : Nat) : List String := (l.drop a).take (b - a)

/-- The forgiving sale-callout parser (`parseSalesMessage`).  The processing
clock is passed in as `saleDate` (current `YYYY-MM-DD`) and `timestamp`
(current ISO instant), which the code reads from `new Date()`. -/
def parseSalesMessage (text senderName saleDate timestamp : String) : Option SaleEvent :=
  if text = "" then none else
  let tokens := jsTokens text
  if tokens.length < 3 then none else
  let countIndex := tokens.findIdx hasIntTest
  if countIndex = tokens.length then none else
  match jsFirstIntMatch (tokens.getD countIndex "") with
  | none => none
  | some m =>
    match jsParseInt m with
    | none => none
    | some todayReported =>
      let dateIndex := tokens.findIdx isDateToken
      if dateIndex = tokens.length ∨ dateIndex ≤ countIndex then none else
      let installDate := tokens.getD dateIndex ""
      let lastTok := tokens.getD (tokens.length - 1) ""
      let speed :=
        if (!speedTest lastTok && tokens.length ≥ 2) then
          let maybeSpeed := tokens.getD (tokens.length - 2) ""
          if speedTest maybeSpeed then maybeSpeed else lastTok
        else lastTok
      let speedIndex := jsLastIndexOf tokens speed
      let provider :=
        if speedIndex > (dateIndex : Int) then
          " ".intercalate (jsSlice tokens (dateIndex + 1) speedIndex.toNat)
        else ""
      let customerName := " ".intercalate (jsSlice tokens (countIndex + 1) dateIndex)
      some {
        repName := senderName
        todayReported := todayReported
        customerName := customerName
        installDate := installDate
        provider := provider
        speed := speed
        saleDate := saleDate
        timestamp := timestamp
      }

/-! ### Leaderboard reconciler (`updateLeaderboardAndGetStandings`) -/

/-- The header row bootstrapped when the sheet is empty. -/
def defaultHeader : Row := ["Rep", "Today", "Week", "Month", "Lifetime", "LastUpdate"]

/-- `toLowerCase` character by character (same as `String.toLower`, stated
over the character list so that it evaluates by reduction). -/
def jsToLower (s : String) : String := ⟨s.toList.map Char.toLower⟩

/-- The rep-row predicate of `rows.findIndex`:
`r[0] && r[0].toLowerCase() === repName.toLowerCase()`. -/
def matchesRep (repName : String) (r : Row) : Bool :=
  cell r 0 ≠ "" && jsToLower (cell r 0) == jsToLower repName

/-- The row pushed for a brand-new rep. -/
def newRepRow (repName : String) (todayReported : Int) (nowIso : String) : Row :=
  [repName, jsIntToString todayReported, jsIntToString todayReported,
    jsIntToString todayReported, jsIntToString todayReported, nowIso]

/-- JavaScript `s.slice(0, 10)`, the calendar-date part of an ISO timestamp. -/
def jsSlice10 (s : String) : String := ⟨s.toList.take 10⟩

/-- Whether the day-rollover branch fires:
`prevDate && prevDate !== currentDate` with
`prevDate = prevLastUpdate ? prevLastUpdate.slice(0, 10) : null`. -/
def rolloverFires (lastUpdateCell currentDate : String) : Bool :=
  if lastUpdateCell = "" then false
  else
    let prevDate : String := jsSlice10 lastUpdateCell
    prevDate ≠ "" && prevDate ≠ currentDate

/-- The in-place update of an existing rep's row (the `else` branch of the
reconciler): numeric cells are read with `parseInt(row[i] || '0', 10)`,
the today baseline is zeroed on day rollover, the delta is clamped to
`todayReported` when negative, and the new cells are reserialized. -/
def updateExistingRow (row : Row) (todayReported : Int) (currentDate nowIso : String) : Row :=
  let today0 : Option Int := parsedCell row 1
  let week : Option Int := parsedCell row 2
  let month : Option Int := parsedCell row 3
  let lifetime : Option Int := parsedCell row 4
  let prevLastUpdate := jsOr (cell row 5) ""
  let today1 : Option Int :=
    if rolloverFires prevLastUpdate currentDate then some 0 else today0
  let delta : Option Int :=
    match today1 with
    | some prevToday =>
      let d := todayReported - prevToday
      if d < 0 then some todayReported else some d
    | none => none
  let weekNew : Option Int := match week, delta with
    | some w, some d => some (w + d)
    | _, _ => none
  let monthNew : Option Int := match month, delta with
    | some m, some d => some (m + d)
    | _, _ => none
  let lifetimeNew : Option Int := match lifetime, delta with
    | some l, some d => some (l + d)
    | _, _ => none
  [cell row 0, jsIntToString todayReported, optToString weekNew,
    optToString monthNew, optToString lifetimeNew, nowIso]

/-- The reconciler's row mutation, before the sort: append a new rep row
when `findIndex` misses, otherwise replace the matched row in place. -/
def updateLeaderboardRows (rows : List Row) (repName : String) (todayReported : Int)
    (currentDate nowIso : String) : List Row :=
  let repIndex := rows.findIdx (matchesRep repName)
  if h : repIndex < rows.length then
    rows.set repIndex (updateExistingRow (rows.get ⟨repIndex, h⟩) todayReported currentDate nowIso)
  else
    rows ++ [newRepRow repName todayReported nowIso]

/-- The sort comparator `(a, b) => parseInt(b[1] || '0') - parseInt(a[1] || '0')`:
`a` may stay before `b` when the comparator is `≤ 0`; an `NaN` comparator
value is treated as `0` (keep order), hence `true` whenever either key is `NaN`. -/
def rowLe (a b : Row) : Bool :=
  match parsedCell a 1, parsedCell b 1 with
  | some x, some y => decide (y ≤ x)
  | _, _ => true

/-- The stable descending sort by the Today column applied before persisting. -/
def jsSortRows (rows : List Row) : List Row := rows.mergeSort rowLe

/-- The full leaderboard mutation: rows are updated, then sorted by Today
descending; this is the row set persisted back to the sheet. -/
def persistedRows (rows : List Row) (repName : String) (todayReported : Int)
    (currentDate nowIso : String) : List Row :=
  jsSortRows (updateLeaderboardRows rows repName todayReported currentDate nowIso)

/-- The persisted sheet values, header row included (empty sheet bootstraps
the default header). -/
def updateLeaderboardValues (values : List Row) (repName : String) (todayReported : Int)
    (currentDate nowIso : String) : List Row :=
  let vs := if values.isEmpty then [defaultHeader] else values
  vs.headD [] :: persistedRows (vs.drop 1) repName todayReported currentDate nowIso

/-- The `[Rep, Today]` standings pairs returned to the caller. -/
def standingsOf (rows : List Row) : List (String × String) :=
  rows.map (fun r => (cell r 0, cell r 1))

/-- The row appended to the SalesLog for one sale event. -/
def salesLogRow (repName : String) (todayReported : Int)
    (customerName installDate provider speed saleDate timestamp : String) : Row :=
  [timestamp, repName, customerName, saleDate, installDate, provider, speed,
    jsIntToString todayReported]

/-! ### Daily reset (`resetTodayAndMaybeWeek`) -/

/-- Day of week of a Gregorian calendar date, 0 = Sunday (Sakamoto). -/
def dayOfWeek (y m d : Nat) : Nat :=
  let t : List Int := [0, 3, 2, 5, 0, 3, 5, 1, 4, 6, 2, 4]
  let yy : Int := if m < 3 then (y : Int) - 1 else (y : Int)
  ((yy + yy.fdiv 4 - yy.fdiv 100 + yy.fdiv 400 + t.getD (m - 1) 0 + (d : Int)) % 7).toNat

def isLeapYear (y : Nat) : Bool :=
  (y % 4 == 0 && y % 100 != 0) || y % 400 == 0

def daysInMonth (y m : Nat) : Nat :=
  if m = 2 then (if isLeapYear y then 29 else 28)
  else if m = 4 ∨ m = 6 ∨ m = 9 ∨ m = 11 then 30
  else 31

/-- Parse a `YYYY-MM-DD` string into a valid calendar date. -/
def parseIsoDate (s : String) : Option (Nat × Nat × Nat) :=
  match s.toList with
  | [y1, y2, y3, y4, '-', m1, m2, '-', d1, d2] =>
    if (y1.isDigit && y2.isDigit && y3.isDigit && y4.isDigit &&
        m1.isDigit && m2.isDigit && d1.isDigit && d2.isDigit) then
      let y := foldVal [y1, y2, y3, y4]
      let m := foldVal [m1, m2]
      let d := foldVal [d1, d2]
      if (1 ≤ m && m ≤ 12 && 1 ≤ d && d ≤ daysInMonth y m) then some (y, m, d) else none
    else none
  | _ => none

/-- `new Date(currentDateIso).getDay() === 1` for an ISO `YYYY-MM-DD` string
(UTC; an invalid date yields `NaN`, which is not `1`). -/
def jsIsMonday (dateIso : String) : Bool :=
  match parseIsoDate dateIso with
  | some (y, m, d) => dayOfWeek y m d == 1
  | none => false

/-- The per-row body of the reset map: rows with an empty rep cell are
returned untouched; otherwise Today is zeroed, Week is zeroed on Monday
and reserialized otherwise, Month and Lifetime are reserialized, and
LastUpdate is stamped. -/
def resetRow (isMonday : Bool) (nowIso : String) (row : Row) : Row :=
  let rep := jsOr (cell row 0) ""
  if rep = "" then row
  else
    let week : Option Int := parsedCell row 2
    let month : Option Int := parsedCell row 3
    let lifetime : Option Int := parsedCell row 4
    let weekOut : Option Int := if isMonday then some 0 else week
    [rep, jsIntToString 0, optToString weekOut, optToString month,
      optToString lifetime, nowIso]

/-- The reset applied to all data rows. -/
def resetRows (rows : List Row) (isMonday : Bool) (nowIso : String) : List Row :=
  rows.map (resetRow isMonday nowIso)

/-- `resetTodayAndMaybeWeek`: the sheet values written back, header included. -/
def resetTodayAndMaybeWeek (values : List Row) (currentDateIso nowIso : String) : List Row :=
  let vs := if values.isEmpty then [defaultHeader] else values
  vs.headD [] :: resetRows (vs.drop 1) (jsIsMonday currentDateIso) nowIso

/-! ### Daily summary (`getDailySummary`) -/

/-- JavaScript `Map.prototype.get` over an insertion-ordered association list. -/
def mapGet (m : List (String × Nat)) (k : String) : Option Nat :=
  (m.find? (fun e => e.1 == k)).map (fun e => e.2)

/-- JavaScript `Map.prototype.set`: update in place, else append. -/
def mapSet (m : List (String × Nat)) (k : String) (v : Nat) : List (String × Nat) :=
  match m with
  | [] => [(k, v)]
  | e :: rest => if e.1 = k then (k, v) :: rest else e :: mapSet rest k v

/-- The loop body of `getDailySummary`: skip rows with an empty rep or
sale-date cell, count rows whose sale date equals the queried date. -/
def summaryStep (dateIso : String) (acc : List (String × Nat) × Nat) (row : Row) :
    List (String × Nat) × Nat :=
  let rep := jsOr (cell row 1) ""
  let saleDate := jsOr (cell row 3) ""
  if rep = "" ∨ saleDate = "" then acc
  else if saleDate = dateIso then
    (mapSet acc.1 rep ((mapGet acc.1 rep).getD 0 + 1), acc.2 + 1)
  else acc

/-- The descending-by-count comparator `(a, b) => b.count - a.count`. -/
def countLe (a b : String × Nat) : Bool := b.2 ≤ a.2

/-- `getDailySummary`: per-rep counts for one date, sorted descending by
count (stable, so ties keep first-encountered order), plus the total. -/
def getDailySummary (values : List Row) (dateIso : String) : List (String × Nat) × Nat :=
  if values.length ≤ 1 then ([], 0)
  else
    let rows := values.drop 1
    let acc := rows.foldl (summaryStep dateIso) ([], 0)
    (acc.1.mergeSort countLe, acc.2)

/-- A log row counted by the summary loop for `dateIso`: nonempty rep cell,
nonempty sale-date cell, sale date equal to the queried date. -/
def countedRow (dateIso : String) (row : Row) : Bool :=
  jsOr (cell row 1) "" ≠ "" && jsOr (cell row 3) "" ≠ "" && jsOr (cell row 3) "" == dateIso

/-! ### Roundtrip: serializing a numeric value and reading the cell back -/

/-- The ten decimal digit characters. -/
def digitChars : List Char := ['0', '1', '2', '3', '4', '5', '6', '7', '8', '9']

theorem digitChar_mem {n : Nat} (h : n < 10) : Nat.digitChar n ∈ digitChars := by
  interval_cases n <;> decide

theorem digit_props {c : Char} (h : c ∈ digitChars) :
    c.isDigit = true ∧ c.isWhitespace = false ∧ c ≠ '-' ∧ c ≠ '+' := by
  fin_cases h <;> exact ⟨rfl, rfl, by decide, by decide⟩

theorem digitVal_digitChar {n : Nat} (h : n < 10) : digitVal (Nat.digitChar n) = n := by
  interval_cases n <;> decide

theorem foldVal_append (xs : List Char) (c : Char) :
    foldVal (xs ++ [c]) = foldVal xs * 10 + digitVal c := by
  simp [foldVal, List.foldl_append]

theorem natDigits_spec : ∀ fuel n, n < fuel →
    natDigits fuel n ≠ [] ∧ (∀ c ∈ natDigits fuel n, c ∈ digitChars) ∧
      foldVal (natDigits fuel n) = n := by
  intro fuel
  induction fuel with
  | zero => intro n h; omega
  | succ fuel ih =>
    intro n h
    by_cases hn : n < 10
    · refine ⟨by simp [natDigits, hn], ?_, ?_⟩
      · intro c hc
        simp [natDigits, hn] at hc
        exact hc ▸ digitChar_mem hn
      · simp [natDigits, hn, foldVal]
        exact digitVal_digitChar hn
    · have hdiv : n / 10 < fuel := by omega
      obtain ⟨hne, hmem, hval⟩ := ih (n / 10) hdiv
      have hmod : n % 10 < 10 := Nat.mod_lt _ (by omega)
      refine ⟨by simp [natDigits, hn], ?_, ?_⟩
      · intro c hc
        simp only [natDigits, if_neg hn, List.mem_append, List.mem_singleton] at hc
        rcases hc with hc | hc
        · exact hmem c hc
        · exact hc ▸ digitChar_mem hmod
      · simp only [natDigits, if_neg hn]
        rw [foldVal_append, hval, digitVal_digitChar hmod]
        omega

theorem takeWhile_all {p : Char → Bool} : ∀ {l : List Char}, (∀ c ∈ l, p c = true) →
    l.takeWhile p = l := by
  intro l
  induction l with
  | nil => intro _; rfl
  | cons c cs ih =>
    intro h
    rw [List.takeWhile_cons, h c (by simp)]
    simp [ih (fun x hx => h x (by simp [hx]))]

theorem leadDigits_all_digits {l : List Char} (hne : l ≠ [])
    (hd : ∀ c ∈ l, c ∈ digitChars) : leadDigits l = some (foldVal l) := by
  rw [leadDigits, takeWhile_all (fun c hc => (digit_props (hd c hc)).1)]
  simp [List.isEmpty_iff, hne]

theorem jsParseInt_all_digits {l : List Char} (hne : l ≠ [])
    (hd : ∀ c ∈ l, c ∈ digitChars) :
    jsParseInt ⟨l⟩ = some ((foldVal l : Nat) : Int) := by
  obtain ⟨c, cs, rfl⟩ : ∃ c cs, l = c :: cs := by
    cases l with
    | nil => exact absurd rfl hne
    | cons c cs => exact ⟨c, cs, rfl⟩
  obtain ⟨_, hws, hminus, hplus⟩ := digit_props (hd c (by simp))
  have hdrop : (String.mk (c :: cs)).toList.dropWhile Char.isWhitespace = c :: cs := by
    rw [show (String.mk (c :: cs)).toList = c :: cs from rfl, List.dropWhile_cons, hws]
    rfl
  rw [jsParseInt, hdrop, jsParseIntAux, if_neg hminus, if_neg hplus,
    leadDigits_all_digits hne hd]
  rfl

theorem jsNatToString_toList (n : Nat) : (jsNatToString n).toList = natDigits (n + 1) n := rfl

theorem jsParseInt_natToString (n : Nat) : jsParseInt (jsNatToString n) = some (n : Int) := by
  obtain ⟨hne, hmem, hval⟩ := natDigits_spec (n + 1) n (by omega)
  have := jsParseInt_all_digits hne hmem
  rw [jsNatToString, this, hval]

theorem jsParseInt_intToString (n : Int) : jsParseInt (jsIntToString n) = some n := by
  rw [jsIntToString]
  by_cases h : n < 0
  · rw [if_pos h]
    obtain ⟨hne, hmem, hval⟩ := natDigits_spec (n.natAbs + 1) n.natAbs (by omega)
    have hlist : ("-" ++ jsNatToString n.natAbs).toList = '-' :: natDigits (n.natAbs + 1) n.natAbs := by
      show ("-" ++ jsNatToString n.natAbs).data = _
      rw [String.data_append]
      rfl
    have hdrop : ('-' :: natDigits (n.natAbs + 1) n.natAbs).dropWhile Char.isWhitespace =
        '-' :: natDigits (n.natAbs + 1) n.natAbs := by
      rw [List.dropWhile_cons]
      rfl
    rw [jsParseInt, hlist, hdrop, jsParseIntAux, if_pos rfl,
      leadDigits_all_digits hne hmem, hval]
    simp only [Option.map]
    congr 1
    have habs : ((n.natAbs : Nat) : Int) = -n := Int.ofNat_natAbs_of_nonpos (by omega)
    rw [habs, neg_neg]
  · rw [if_neg h, jsParseInt_natToString]
    congr 1
    exact Int.toNat_of_nonneg (by omega)

theorem natDigits_ne_nil (n : Nat) : natDigits (n + 1) n ≠ [] :=
  (natDigits_spec (n + 1) n (by omega)).1

theorem jsIntToString_ne_empty (n : Int) : jsIntToString n ≠ "" := by
  rw [jsIntToString]
  by_cases h : n < 0
  · rw [if_pos h]
    intro hcontra
    have h3 : ('-' :: (jsNatToString n.natAbs).data) = ([] : List Char) :=
      congrArg String.data hcontra
    exact absurd h3 (by simp)
  · rw [if_neg h]
    intro hcontra
    have h3 : (jsNatToString n.toNat).data = ([] : List Char) :=
      congrArg String.data hcontra
    exact natDigits_ne_nil n.toNat h3

/-- Reading back a serialized cell through `parseInt(cell || '0', 10)` recovers
the value, `NaN` included. -/
theorem jsParseInt_optToString (o : Option Int) :
    jsParseInt (jsOr (optToString o) "0") = o := by
  cases o with
  | none => rfl
  | some n =>
    rw [optToString, jsOr, if_neg (jsIntToString_ne_empty n)]
    exact jsParseInt_intToString n

/-- `parsedCell` on a freshly written six-cell row, cell by cell. -/
theorem parsedCell_cons (a b c d e f : String) :
    cell [a, b, c, d, e, f] 0 = a ∧ cell [a, b, c, d, e, f] 1 = b ∧
    cell [a, b, c, d, e, f] 2 = c ∧ cell [a, b, c, d, e, f] 3 = d ∧
    cell [a, b, c, d, e, f] 4 = e ∧ cell [a, b, c, d, e, f] 5 = f := by
  exact ⟨rfl, rfl, rfl, rfl, rfl, rfl⟩

/-! ### Shape lemmas for the reconciler -/

theorem jsOr_empty (s : String) : jsOr s "" = s := by
  rw [jsOr]
  split <;> simp_all

theorem getD_of_lt {l : List Row} {i : Nat} (h : i < l.length) : l.getD i [] = l[i] := by
  simp [List.getD_eq_getElem?_getD, List.getElem?_eq_getElem h]

/-- The existing-rep update when the day-rollover branch fires: the baseline
is zeroed, so the delta is `todayReported` whatever the stored Today cell
held. -/
theorem updateExistingRow_rollover (row : Row) (tr : Int) (cd now : String)
    (h : rolloverFires (jsOr (cell row 5) "") cd = true) :
    updateExistingRow row tr cd now =
      [cell row 0, jsIntToString tr,
        optToString ((parsedCell row 2).map (fun v => v + tr)),
        optToString ((parsedCell row 3).map (fun v => v + tr)),
        optToString ((parsedCell row 4).map (fun v => v + tr)), now] := by
  rw [updateExistingRow]
  simp only [h, if_pos, if_true]
  have hd : (if tr - 0 < 0 then some tr else some (tr - 0)) = some tr := by
    split <;> simp
  rw [hd]
  cases parsedCell row 2 <;> cases parsedCell row 3 <;> cases parsedCell row 4 <;> rfl

/-- The existing-rep update when the rollover branch does not fire: the
baseline is the parsed Today cell, the delta is clamped to `todayReported`
when negative. -/
theorem updateExistingRow_sameday (row : Row) (tr : Int) (cd now : String) (t : Int)
    (h : rolloverFires (jsOr (cell row 5) "") cd = false)
    (ht : parsedCell row 1 = some t) :
    updateExistingRow row tr cd now =
      [cell row 0, jsIntToString tr,
        optToString ((parsedCell row 2).map (fun v => v + (if tr - t < 0 then tr else tr - t))),
        optToString ((parsedCell row 3).map (fun v => v + (if tr - t < 0 then tr else tr - t))),
        optToString ((parsedCell row 4).map (fun v => v + (if tr - t < 0 then tr else tr - t))),
        now] := by
  rw [updateExistingRow]
  simp only [h, Bool.false_eq_true, if_false, ht]
  have hd : (if tr - t < 0 then some tr else some (tr - t)) =
      some (if tr - t < 0 then tr else tr - t) := by
    split <;> rfl
  rw [hd]
  cases parsedCell row 2 <;> cases parsedCell row 3 <;> cases parsedCell row 4 <;> rfl

/-- For a parseable Today cell there is a single delta added to Week, Month
and Lifetime, and it is non-negative whenever `todayReported` is. -/
theorem updateExistingRow_delta (row : Row) (tr : Int) (cd now : String) (t : Int)
    (ht : parsedCell row 1 = some t) :
    ∃ d : Int, (0 ≤ tr → 0 ≤ d) ∧
      updateExistingRow row tr cd now =
        [cell row 0, jsIntToString tr,
          optToString ((parsedCell row 2).map (fun v => v + d)),
          optToString ((parsedCell row 3).map (fun v => v + d)),
          optToString ((parsedCell row 4).map (fun v => v + d)), now] := by
  by_cases h : rolloverFires (jsOr (cell row 5) "") cd = true
  · exact ⟨tr, fun htr => htr, updateExistingRow_rollover row tr cd now h⟩
  · refine ⟨if tr - t < 0 then tr else tr - t, ?_, ?_⟩
    · intro htr
      split <;> omega
    · exact updateExistingRow_sameday row tr cd now t (by simpa using h) ht

/-- The reconciler's case split: matched rep replaces one row in place. -/
theorem updateLeaderboardRows_found (rows : List Row) (repName : String) (tr : Int)
    (cd now : String) (i : Nat) (hi : rows.findIdx (matchesRep repName) = i)
    (hlen : i < rows.length) :
    updateLeaderboardRows rows repName tr cd now =
      rows.set i (updateExistingRow (rows.getD i []) tr cd now) := by
  rw [updateLeaderboardRows]
  rw [dif_pos (by rw [hi]; exact hlen)]
  subst hi
  rw [getD_of_lt hlen]
  rfl

/-- The reconciler's case split: unmatched rep appends one fresh row. -/
theorem updateLeaderboardRows_notFound (rows : List Row) (repName : String) (tr : Int)
    (cd now : String) (hno : ∀ r ∈ rows, matchesRep repName r = false) :
    updateLeaderboardRows rows repName tr cd now = rows ++ [newRepRow repName tr now] := by
  rw [updateLeaderboardRows]
  rw [dif_neg]
  rw [List.findIdx_eq_length_of_false hno]
  omega

theorem take10_ne_empty {s : String} (h : s ≠ "") : jsSlice10 s ≠ "" := by
  rw [jsSlice10]
  cases hs : s.toList with
  | nil =>
    exact absurd (by cases s; cases hs; rfl) h
  | cons c cs =>
    rw [List.take_succ_cons]
    intro hc
    exact absurd (congrArg String.data hc) (by simp)

theorem rolloverFires_of_ne {lu cd : String} (h5 : lu ≠ "") (hdiff : jsSlice10 lu ≠ cd) :
    rolloverFires lu cd = true := by
  rw [rolloverFires, if_neg h5]
  simp [take10_ne_empty h5, hdiff]

theorem rolloverFires_of_same {lu cd : String} (h : lu = "" ∨ jsSlice10 lu = cd) :
    rolloverFires lu cd = false := by
  rcases h with h | h
  · rw [rolloverFires, if_pos h]
  · rw [rolloverFires]
    split
    · rfl
    · simp [h]

/-! ### Claims about the reconciler -/

/-- Claim C6: for every existing rep whose computed delta (`todayReported`
minus the baseline today, after the rollover adjustment) is negative, the
reconciler discards that delta and instead adds `todayReported` itself to
week, month and lifetime, and sets today to `todayReported`. -/
theorem claim_c6_negative_delta (rows : List Row) (repName : String) (tr : Int)
    (cd now : String) (i : Nat) (t w m l : Int)
    (hi : rows.findIdx (matchesRep repName) = i) (hlen : i < rows.length)
    (ht : parsedCell (rows.getD i []) 1 = some t)
    (hw : parsedCell (rows.getD i []) 2 = some w)
    (hm : parsedCell (rows.getD i []) 3 = some m)
    (hl : parsedCell (rows.getD i []) 4 = some l)
    (hneg : tr - (if rolloverFires (jsOr (cell (rows.getD i []) 5) "") cd then 0 else t) < 0) :
    updateLeaderboardRows rows repName tr cd now =
      rows.set i [cell (rows.getD i []) 0, jsIntToString tr, jsIntToString (w + tr),
        jsIntToString (m + tr), jsIntToString (l + tr), now] := by
  rw [updateLeaderboardRows_found rows repName tr cd now i hi hlen]
  by_cases hro : rolloverFires (jsOr (cell (rows.getD i []) 5) "") cd = true
  · rw [updateExistingRow_rollover _ _ _ _ hro, hw, hm, hl]
    rfl
  · have hro2 : rolloverFires (jsOr (cell (rows.getD i []) 5) "") cd = false := by
      simpa using hro
    rw [hro2] at hneg
    simp only [Bool.false_eq_true, if_false] at hneg
    rw [updateExistingRow_sameday _ _ _ _ t hro2 ht, hw, hm, hl]
    simp only [Option.map_some', if_pos hneg]
    rfl

/-- Claim C7: when the stored LastUpdate cell is non-empty and its
calendar-date part differs from the event's sale date, the baseline today is
0 (so week, month, lifetime each grow by `todayReported`, whatever Today
held); when LastUpdate is absent or its date part equals the sale date, the
parsed Today cell is the baseline of the delta. -/
theorem claim_c7_rollover_baseline (rows : List Row) (repName : String) (tr : Int)
    (cd now : String) (i : Nat) (w m l : Int)
    (hi : rows.findIdx (matchesRep repName) = i) (hlen : i < rows.length)
    (hw : parsedCell (rows.getD i []) 2 = some w)
    (hm : parsedCell (rows.getD i []) 3 = some m)
    (hl : parsedCell (rows.getD i []) 4 = some l) :
    (cell (rows.getD i []) 5 ≠ "" → jsSlice10 (cell (rows.getD i []) 5) ≠ cd →
      updateLeaderboardRows rows repName tr cd now =
        rows.set i [cell (rows.getD i []) 0, jsIntToString tr, jsIntToString (w + tr),
          jsIntToString (m + tr), jsIntToString (l + tr), now]) ∧
    (∀ t : Int, parsedCell (rows.getD i []) 1 = some t →
      (cell (rows.getD i []) 5 = "" ∨ jsSlice10 (cell (rows.getD i []) 5) = cd) →
      updateLeaderboardRows rows repName tr cd now =
        rows.set i [cell (rows.getD i []) 0, jsIntToString tr,
          jsIntToString (w + (if tr - t < 0 then tr else tr - t)),
          jsIntToString (m + (if tr - t < 0 then tr else tr - t)),
          jsIntToString (l + (if tr - t < 0 then tr else tr - t)), now]) := by
  constructor
  · intro h5 hdiff
    rw [updateLeaderboardRows_found rows repName tr cd now i hi hlen]
    have hro : rolloverFires (jsOr (cell (rows.getD i []) 5) "") cd = true := by
      rw [jsOr_empty]
      exact rolloverFires_of_ne h5 hdiff
    rw [updateExistingRow_rollover _ _ _ _ hro, hw, hm, hl]
    rfl
  · intro t ht hsame
    rw [updateLeaderboardRows_found rows repName tr cd now i hi hlen]
    have hro : rolloverFires (jsOr (cell (rows.getD i []) 5) "") cd = false := by
      rw [jsOr_empty]
      exact rolloverFires_of_same hsame
    rw [updateExistingRow_sameday _ _ _ _ t hro ht, hw, hm, hl]
    simp only [Option.map_some']
    rfl

theorem parsedCell_intToString (v : Int) : jsParseInt (jsOr (jsIntToString v) "0") = some v :=
  jsParseInt_optToString (some v)

/-- Claim C8: a rep with no case-insensitive match among existing rows gets
exactly one freshly appended row whose Today, Week, Month and Lifetime all
equal `todayReported`, with LastUpdate stamped to the current time; the
persisted (sorted) row set is a permutation of the old rows plus that one
row. -/
theorem claim_c8_new_rep (rows : List Row) (repName : String) (tr : Int) (cd now : String)
    (hno : ∀ r ∈ rows, matchesRep repName r = false) :
    updateLeaderboardRows rows repName tr cd now = rows ++ [newRepRow repName tr now] ∧
    List.Perm (persistedRows rows repName tr cd now) (rows ++ [newRepRow repName tr now]) ∧
    cell (newRepRow repName tr now) 0 = repName ∧
    parsedCell (newRepRow repName tr now) 1 = some tr ∧
    parsedCell (newRepRow repName tr now) 2 = some tr ∧
    parsedCell (newRepRow repName tr now) 3 = some tr ∧
    parsedCell (newRepRow repName tr now) 4 = some tr ∧
    cell (newRepRow repName tr now) 5 = now := by
  have hupd := updateLeaderboardRows_notFound rows repName tr cd now hno
  refine ⟨hupd, ?_, rfl, ?_, ?_, ?_, ?_, rfl⟩
  · rw [persistedRows, hupd]
    exact List.mergeSort_perm _ _
  all_goals exact parsedCell_intToString tr

/-- Claim C9: one sale event changes at most one leaderboard row: the
persisted rows are a permutation either of the old rows with a single new
row appended, or of the old rows with the single case-insensitively matched
row replaced; every other row keeps all its cells. -/
theorem claim_c9_frame (rows : List Row) (repName : String) (tr : Int) (cd now : String) :
    (∃ x, List.Perm (persistedRows rows repName tr cd now) (rows ++ [x])) ∨
    (∃ i x, i < rows.length ∧ matchesRep repName (rows.getD i []) = true ∧
      List.Perm (persistedRows rows repName tr cd now) (rows.set i x)) := by
  by_cases h : rows.findIdx (matchesRep repName) < rows.length
  · right
    refine ⟨rows.findIdx (matchesRep repName),
      updateExistingRow (rows.getD (rows.findIdx (matchesRep repName)) []) tr cd now, h, ?_, ?_⟩
    · rw [getD_of_lt h]
      exact List.findIdx_getElem
    · rw [persistedRows, updateLeaderboardRows_found rows repName tr cd now _ rfl h]
      exact List.mergeSort_perm _ _
  · left
    have hno : ∀ r ∈ rows, matchesRep repName r = false := by
      refine List.findIdx_eq_length.mp ?_
      have := @List.findIdx_le_length _ (matchesRep repName) rows
      omega
    refine ⟨newRepRow repName tr now, ?_⟩
    rw [persistedRows, updateLeaderboardRows_notFound rows repName tr cd now hno]
    exact List.mergeSort_perm _ _

/-! ### Claims about the daily reset -/

/-- Claim C4: the reset zeroes Today for every rep row, zeroes Week exactly
on the designated week-start weekday (Monday of the given date) and
otherwise preserves its value, never changes the Month or Lifetime values,
and stamps LastUpdate. -/
theorem claim_c4_reset (rows : List Row) (date now : String) (i : Nat)
    (hlen : i < rows.length) (hrep : cell (rows.getD i []) 0 ≠ "") :
    cell ((resetRows rows (jsIsMonday date) now).getD i []) 1 = "0" ∧
    (jsIsMonday date = true → cell ((resetRows rows (jsIsMonday date) now).getD i []) 2 = "0") ∧
    (jsIsMonday date = false →
      parsedCell ((resetRows rows (jsIsMonday date) now).getD i []) 2 =
        parsedCell (rows.getD i []) 2) ∧
    parsedCell ((resetRows rows (jsIsMonday date) now).getD i []) 3 =
      parsedCell (rows.getD i []) 3 ∧
    parsedCell ((resetRows rows (jsIsMonday date) now).getD i []) 4 =
      parsedCell (rows.getD i []) 4 ∧
    cell ((resetRows rows (jsIsMonday date) now).getD i []) 5 = now ∧
    cell ((resetRows rows (jsIsMonday date) now).getD i []) 0 = cell (rows.getD i []) 0 := by
  have hlen2 : i < (resetRows rows (jsIsMonday date) now).length := by
    rw [resetRows, List.length_map]
    exact hlen
  have hget : (resetRows rows (jsIsMonday date) now).getD i [] =
      resetRow (jsIsMonday date) now (rows.getD i []) := by
    rw [getD_of_lt hlen2, getD_of_lt hlen]
    simp only [resetRows, List.getElem_map]
  rw [hget]
  rw [resetRow, jsOr_empty, if_neg hrep]
  refine ⟨rfl, ?_, ?_, ?_, ?_, rfl, rfl⟩
  · intro hmon
    rw [hmon]
    rfl
  · intro hmon
    rw [hmon]
    simp only [Bool.false_eq_true, if_false]
    exact jsParseInt_optToString _
  · exact jsParseInt_optToString _
  · exact jsParseInt_optToString _

/-- Claim C10: a leaderboard row whose Rep cell is empty or missing is left
entirely unchanged by the reset, on every invocation. -/
theorem claim_c10_empty_rep_row (rows : List Row) (date now : String) (i : Nat)
    (hlen : i < rows.length) (hrep : cell (rows.getD i []) 0 = "") :
    (resetRows rows (jsIsMonday date) now).getD i [] = rows.getD i [] := by
  have hlen2 : i < (resetRows rows (jsIsMonday date) now).length := by
    rw [resetRows, List.length_map]
    exact hlen
  rw [getD_of_lt hlen2, getD_of_lt hlen]
  simp only [resetRows, List.getElem_map]
  rw [resetRow, jsOr_empty]
  rw [getD_of_lt hlen] at hrep
  rw [if_pos hrep]

/-! ### Claim C1: monotonicity of week, month, lifetime -/

/-- Claim C1 counterexample: the parser accepts a minus-signed count token
and produces `todayReported = -1`; applying that event to an existing rep
makes week (and month, lifetime) strictly decrease, from 5 to 4. -/
theorem claim_c1_counterexample :
    (parseSalesMessage "🛜 -1 Jane Doe 11/25 Kinetic 1G" "Al" "2026-01-01" "T").map
        SaleEvent.todayReported = some (-1) ∧
    updateLeaderboardRows [["Al", "2", "5", "5", "5", "2026-01-01T00:00:00.000Z"]] "Al" (-1)
        "2026-01-01" "NOW" = [["Al", "-1", "4", "4", "4", "NOW"]] ∧
    parsedCell ["Al", "2", "5", "5", "5", "2026-01-01T00:00:00.000Z"] 2 = some 5 ∧
    parsedCell ["Al", "-1", "4", "4", "4", "NOW"] 2 = some 4 ∧ ((4 : Int) < 5) :=
  ⟨rfl, rfl, rfl, rfl, by decide⟩

/-- Claim C1 (amended): when the reported count is non-negative (which the
parser does not guarantee: a minus-signed token yields a negative count) and
the Today cells parse, every row's parsed Week, Month and Lifetime cells are
at least their previous values after reconciliation. -/
theorem claim_c1_monotone (rows : List Row) (repName : String) (tr : Int) (cd now : String)
    (htr : 0 ≤ tr)
    (htoday : ∀ r ∈ rows, (parsedCell r 1).isSome)
    (j k : Nat) (hj : j < rows.length) (hk : k = 2 ∨ k = 3 ∨ k = 4)
    (v : Int) (hv : parsedCell (rows.getD j []) k = some v) :
    ∃ w : Int,
      parsedCell ((updateLeaderboardRows rows repName tr cd now).getD j []) k = some w ∧
      v ≤ w := by
  by_cases h : rows.findIdx (matchesRep repName) < rows.length
  · rw [updateLeaderboardRows_found rows repName tr cd now _ rfl h]
    by_cases hij : rows.findIdx (matchesRep repName) = j
    · subst hij
      have hlen2 : rows.findIdx (matchesRep repName) <
          (rows.set (rows.findIdx (matchesRep repName))
            (updateExistingRow (rows.getD (rows.findIdx (matchesRep repName)) []) tr cd now)).length := by
        rw [List.length_set]
        exact h
      rw [getD_of_lt hlen2, List.getElem_set_self]
      have hmem : rows.getD (rows.findIdx (matchesRep repName)) [] ∈ rows := by
        rw [getD_of_lt h]
        exact List.getElem_mem h
      obtain ⟨t, ht⟩ := Option.isSome_iff_exists.mp (htoday _ hmem)
      obtain ⟨d, hd, heq⟩ :=
        updateExistingRow_delta (rows.getD (rows.findIdx (matchesRep repName)) []) tr cd now t ht
      rw [heq]
      rcases hk with rfl | rfl | rfl <;>
        · rw [hv]
          refine ⟨v + d, ?_, by have := hd htr; omega⟩
          simp only [Option.map_some']
          exact jsParseInt_optToString (some (v + d))
    · have hlen2 : j < (rows.set (rows.findIdx (matchesRep repName))
          (updateExistingRow (rows.getD (rows.findIdx (matchesRep repName)) []) tr cd now)).length := by
        rw [List.length_set]
        exact hj
      rw [getD_of_lt hlen2, List.getElem_set_ne hij, ← getD_of_lt hj, hv]
      exact ⟨v, rfl, le_refl v⟩
  · have hno : ∀ r ∈ rows, matchesRep repName r = false := by
      refine List.findIdx_eq_length.mp ?_
      have := @List.findIdx_le_length _ (matchesRep repName) rows
      omega
    rw [updateLeaderboardRows_notFound rows repName tr cd now hno]
    have hlen2 : j < (rows ++ [newRepRow repName tr now]).length := by
      rw [List.length_append]
      omega
    rw [getD_of_lt hlen2, List.getElem_append_left hj, ← getD_of_lt hj, hv]
    exact ⟨v, rfl, le_refl v⟩

/-- Claim C1 witness: a same-day larger report for an existing rep, with
every counter growing. -/
theorem claim_c1_witness :
    ∃ w : Int,
      parsedCell ((updateLeaderboardRows [["Al", "2", "5", "6", "7", ""]] "Al" 4 "2026-01-02"
        "NOW").getD 0 []) 2 = some w ∧ (5 : Int) ≤ w :=
  claim_c1_monotone [["Al", "2", "5", "6", "7", ""]] "Al" 4 "2026-01-02" "NOW"
    (by decide) (by decide) 0 2 (by decide) (Or.inl rfl) 5 (by rfl)

/-! ### Claim C2: the speed-token fallback example -/

/-- Claim C2 counterexample: on the spec's own example the parser keeps the
last token `"1-3"` as the speed (the fallback only examines the
second-to-last token, which also fails), so the speed is not `"2G"` and the
provider is not `"Kinetic"`. -/
theorem claim_c2_counterexample :
    (parseSalesMessage "📶+2 Elliott Ezell 11/25 Kinetic 2G max 1-3" "Bob" "2026-10-11" "T").map
        SaleEvent.speed ≠ some "2G" ∧
    (parseSalesMessage "📶+2 Elliott Ezell 11/25 Kinetic 2G max 1-3" "Bob" "2026-10-11" "T").map
        SaleEvent.provider ≠ some "Kinetic" := by
  constructor <;> decide

/-- Claim C2 (amended): on that text the parse succeeds with count 2,
customer "Elliott Ezell", install date "11/25", but the speed stays the
failing last token `"1-3"` and the provider is everything between the date
and that token, `"Kinetic 2G max"`. -/
theorem claim_c2_amended :
    parseSalesMessage "📶+2 Elliott Ezell 11/25 Kinetic 2G max 1-3" "Bob" "2026-10-11" "T" =
      some ⟨"Bob", 2, "Elliott Ezell", "11/25", "Kinetic 2G max", "1-3", "2026-10-11", "T"⟩ :=
  rfl

/-! ### Claim C3: date-token selection -/

/-- Claim C3 counterexample: in `"1/2 x 3/4"` the count token is at index 0
and the token `"3/4"` at index 2 (past `countIndex + 1`) matches the date
pattern, yet the parse returns null: the scan for the date token starts from
the beginning of the token list, finds `"1/2"` at index 0, and rejects the
message because that first match is not after the count token. -/
theorem claim_c3_counterexample :
    (jsTokens "1/2 x 3/4").findIdx hasIntTest = 0 ∧
    isDateToken ((jsTokens "1/2 x 3/4").getD 2 "") = true ∧
    (jsTokens "1/2 x 3/4").findIdx hasIntTest + 1 ≤ 2 ∧
    parseSalesMessage "1/2 x 3/4" "Bob" "2026-10-11" "T" = none :=
  ⟨rfl, rfl, by decide, rfl⟩

/-- Claim C3 (amended): the parser scans the whole token list and takes the
first token matching the date pattern; a successful parse returns that first
match as the install date and its index is strictly after the count index,
and the parse returns null whenever the first match sits at or before the
count index (even if a later token also matches) or no token matches. -/
theorem claim_c3_first_date_token :
    (∀ text sender sd ts ev, parseSalesMessage text sender sd ts = some ev →
      (jsTokens text).findIdx isDateToken < (jsTokens text).length ∧
      (jsTokens text).findIdx hasIntTest < (jsTokens text).findIdx isDateToken ∧
      ev.installDate = (jsTokens text).getD ((jsTokens text).findIdx isDateToken) "") ∧
    (∀ text sender sd ts,
      ((jsTokens text).findIdx isDateToken = (jsTokens text).length ∨
        (jsTokens text).findIdx isDateToken ≤ (jsTokens text).findIdx hasIntTest) →
      parseSalesMessage text sender sd ts = none) := by
  have hA : ∀ text sender sd ts ev, parseSalesMessage text sender sd ts = some ev →
      (jsTokens text).findIdx isDateToken < (jsTokens text).length ∧
      (jsTokens text).findIdx hasIntTest < (jsTokens text).findIdx isDateToken ∧
      ev.installDate = (jsTokens text).getD ((jsTokens text).findIdx isDateToken) "" := by
    intro text sender sd ts ev h
    simp only [parseSalesMessage] at h
    split at h
    · simp at h
    split at h
    · simp at h
    split at h
    · simp at h
    split at h
    · simp at h
    split at h
    · simp at h
    split at h
    · simp at h
    rename_i hdate
    rw [Option.some_inj] at h
    have hle := @List.findIdx_le_length _ isDateToken (jsTokens text)
    rw [not_or, not_le] at hdate
    refine ⟨by omega, hdate.2, ?_⟩
    rw [← h]
  refine ⟨hA, ?_⟩
  intro text sender sd ts hdate
  rcases hp : parseSalesMessage text sender sd ts with _ | ev
  · rfl
  · exfalso
    obtain ⟨h1, h2, _⟩ := hA text sender sd ts ev hp
    rcases hdate with hd | hd <;> omega

/-- Claim C3 witness for the amended theorem: the count token itself matches
the date pattern, so its text parses to null although a later token matches. -/
theorem claim_c3_witness : parseSalesMessage "7/8 y 9/9" "B" "2026-10-11" "T" = none :=
  claim_c3_first_date_token.2 "7/8 y 9/9" "B" "2026-10-11" "T" (by decide)

/-! ### Claim C5: the daily summary -/

/-- Sum of the per-rep counts. -/
def sumCounts (m : List (String × Nat)) : Nat := (m.map (fun e => e.2)).sum

theorem mapSet_sum (k : String) : ∀ m : List (String × Nat),
    sumCounts (mapSet m k ((mapGet m k).getD 0 + 1)) = sumCounts m + 1 := by
  intro m
  induction m with
  | nil => rfl
  | cons e rest ih =>
    by_cases he : e.1 = k
    · rw [mapSet, if_pos he]
      have hg : mapGet (e :: rest) k = some e.2 := by
        rw [mapGet, List.find?_cons_of_pos _ (by simp [he])]
        rfl
      rw [hg]
      simp only [sumCounts, List.map_cons, List.sum_cons, Option.getD_some]
      omega
    · rw [mapSet, if_neg he]
      have hg : mapGet (e :: rest) k = mapGet rest k := by
        rw [mapGet, mapGet, List.find?_cons_of_neg]
        simp [he]
      rw [hg]
      simp only [sumCounts, List.map_cons, List.sum_cons] at ih ⊢
      omega

theorem summaryStep_counted {dateIso : String} {row : Row}
    (hc : countedRow dateIso row = true) (acc : List (String × Nat) × Nat) :
    summaryStep dateIso acc row =
      (mapSet acc.1 (jsOr (cell row 1) "") ((mapGet acc.1 (jsOr (cell row 1) "")).getD 0 + 1),
        acc.2 + 1) := by
  rw [countedRow] at hc
  simp only [Bool.and_eq_true, ne_eq, decide_eq_true_eq, beq_iff_eq] at hc
  obtain ⟨⟨hrep, hsd⟩, heq⟩ := hc
  rw [summaryStep]
  rw [if_neg (by tauto), if_pos heq]

theorem summaryStep_skipped {dateIso : String} {row : Row}
    (hc : countedRow dateIso row = false) (acc : List (String × Nat) × Nat) :
    summaryStep dateIso acc row = acc := by
  rw [countedRow] at hc
  rw [summaryStep]
  by_cases hskip : jsOr (cell row 1) "" = "" ∨ jsOr (cell row 3) "" = ""
  · rw [if_pos hskip]
  · rw [if_neg hskip]
    rw [not_or] at hskip
    simp only [Bool.and_eq_false_iff, ne_eq, decide_eq_true_eq, beq_iff_eq,
      decide_eq_false_iff_not, not_not, beq_eq_false_iff_ne] at hc
    have hne : ¬ jsOr (cell row 3) "" = dateIso := by tauto
    rw [if_neg hne]

theorem summary_fold (dateIso : String) : ∀ (rows : List Row) (acc : List (String × Nat) × Nat),
    (rows.foldl (summaryStep dateIso) acc).2 =
      acc.2 + (rows.filter (countedRow dateIso)).length ∧
    sumCounts (rows.foldl (summaryStep dateIso) acc).1 =
      sumCounts acc.1 + (rows.filter (countedRow dateIso)).length ∧
    ((rows.filter (countedRow dateIso)).length = 0 →
      rows.foldl (summaryStep dateIso) acc = acc) := by
  intro rows
  induction rows with
  | nil =>
    intro acc
    exact ⟨by simp, by simp, fun _ => rfl⟩
  | cons row rest ih =>
    intro acc
    rw [List.foldl_cons, List.filter_cons]
    by_cases hc : countedRow dateIso row = true
    · rw [if_pos hc, summaryStep_counted hc acc]
      obtain ⟨h1, h2, _⟩ := ih
        (mapSet acc.1 (jsOr (cell row 1) "") ((mapGet acc.1 (jsOr (cell row 1) "")).getD 0 + 1),
          acc.2 + 1)
      refine ⟨?_, ?_, ?_⟩
      · rw [h1]
        simp only [List.length_cons]
        omega
      · rw [h2, mapSet_sum]
        simp only [List.length_cons]
        omega
      · intro hz
        simp at hz
    · rw [if_neg hc, summaryStep_skipped (by simpa using hc) acc]
      exact ih acc

/-- The per-rep counts association list exactly as the summary loop builds
it (insertion-ordered Map): a rep's pair sits at the position of that rep's
first counted occurrence. -/
def dailyCounts (values : List Row) (dateIso : String) : List (String × Nat) :=
  ((values.drop 1).foldl (summaryStep dateIso) ([], 0)).1

/-- First occurrences of a list of names, in order, skipping names seen
before (`seen` accumulates in encounter order). -/
def firstOccurAux : List String → List String → List String
  | [], _ => []
  | r :: rest, seen =>
    if r ∈ seen then firstOccurAux rest seen else r :: firstOccurAux rest (seen ++ [r])

theorem countLe_trans : ∀ (a b c : String × Nat), countLe a b → countLe b c → countLe a c := by
  intro a b c hab hbc
  rw [countLe] at hab hbc ⊢
  simp only [decide_eq_true_eq] at hab hbc ⊢
  omega

theorem countLe_total : ∀ (a b : String × Nat), countLe a b || countLe b a := by
  intro a b
  rw [countLe, countLe]
  simp only [Bool.or_eq_true, decide_eq_true_eq]
  omega

/-- `Map.set` keeps the key sequence unchanged for an existing key and
appends a fresh key at the end. -/
theorem mapSet_keys (k : String) (v : Nat) : ∀ m : List (String × Nat),
    (mapSet m k v).map (fun e => e.1) =
      if k ∈ m.map (fun e => e.1) then m.map (fun e => e.1)
      else m.map (fun e => e.1) ++ [k] := by
  intro m
  induction m with
  | nil => simp [mapSet]
  | cons e rest ih =>
    by_cases he : e.1 = k
    · rw [mapSet, if_pos he]
      rw [if_pos (by simp [he.symm])]
      simp [he]
    · rw [mapSet, if_neg he]
      simp only [List.map_cons]
      rw [ih]
      by_cases hk : k ∈ rest.map (fun e => e.1)
      · rw [if_pos hk, if_pos (List.mem_cons_of_mem _ hk)]
      · rw [if_neg hk, if_neg ?notmem]
        case notmem =>
          intro hmem
          rcases List.mem_cons.mp hmem with hke | hkr
          · exact he (hke.symm)
          · exact hk hkr
        rfl

/-- The summary loop lists reps in the order of their first counted
occurrence: the keys of the counts map are the first occurrences of the
counted rows' rep cells, in row order. -/
theorem summary_fold_keys (dateIso : String) :
    ∀ (rows : List Row) (acc : List (String × Nat) × Nat),
    ((rows.foldl (summaryStep dateIso) acc).1).map (fun e => e.1) =
      acc.1.map (fun e => e.1) ++
        firstOccurAux ((rows.filter (countedRow dateIso)).map (fun r => jsOr (cell r 1) ""))
          (acc.1.map (fun e => e.1)) := by
  intro rows
  induction rows with
  | nil =>
    intro acc
    simp [firstOccurAux]
  | cons row rest ih =>
    intro acc
    rw [List.foldl_cons, List.filter_cons]
    by_cases hc : countedRow dateIso row = true
    · rw [if_pos hc, summaryStep_counted hc acc]
      rw [List.map_cons, firstOccurAux]
      by_cases hk : jsOr (cell row 1) "" ∈ acc.1.map (fun e => e.1)
      · rw [if_pos hk]
        have hkeys : (mapSet acc.1 (jsOr (cell row 1) "")
            ((mapGet acc.1 (jsOr (cell row 1) "")).getD 0 + 1)).map (fun e => e.1) =
            acc.1.map (fun e => e.1) := by
          rw [mapSet_keys, if_pos hk]
        rw [ih]
        rw [show ((mapSet acc.1 (jsOr (cell row 1) "")
            ((mapGet acc.1 (jsOr (cell row 1) "")).getD 0 + 1), acc.2 + 1)).1 =
          mapSet acc.1 (jsOr (cell row 1) "")
            ((mapGet acc.1 (jsOr (cell row 1) "")).getD 0 + 1) from rfl]
        rw [hkeys]
      · rw [if_neg hk]
        have hkeys : (mapSet acc.1 (jsOr (cell row 1) "")
            ((mapGet acc.1 (jsOr (cell row 1) "")).getD 0 + 1)).map (fun e => e.1) =
            acc.1.map (fun e => e.1) ++ [jsOr (cell row 1) ""] := by
          rw [mapSet_keys, if_neg hk]
        rw [ih]
        rw [show ((mapSet acc.1 (jsOr (cell row 1) "")
            ((mapGet acc.1 (jsOr (cell row 1) "")).getD 0 + 1), acc.2 + 1)).1 =
          mapSet acc.1 (jsOr (cell row 1) "")
            ((mapGet acc.1 (jsOr (cell row 1) "")).getD 0 + 1) from rfl]
        rw [hkeys, List.append_assoc]
        rfl
    · rw [if_neg hc, summaryStep_skipped (by simpa using hc) acc]
      exact ih acc

/-- Claim C5 counterexample: a log row with an empty Rep cell but a matching
sale date is skipped by the summary; the total is 0 although exactly one
record's sale date equals the queried date. -/
theorem claim_c5_counterexample :
    getDailySummary [["h"], ["t", "", "c", "2026-01-01"]] "2026-01-01" = ([], 0) ∧
    ((([["h"], ["t", "", "c", "2026-01-01"]] : List Row).drop 1).filter
      (fun r => cell r 3 == "2026-01-01")).length = 1 := by
  constructor
  · have hstep : summaryStep "2026-01-01" ([], 0) ["t", "", "c", "2026-01-01"] = ([], 0) :=
      summaryStep_skipped (by decide) _
    have hfold : List.foldl (summaryStep "2026-01-01") ([], 0) [["t", "", "c", "2026-01-01"]] =
        ([], 0) := by
      rw [List.foldl_cons, hstep, List.foldl_nil]
    show ((List.foldl (summaryStep "2026-01-01") ([], 0) [["t", "", "c", "2026-01-01"]]).1.mergeSort
        countLe,
      (List.foldl (summaryStep "2026-01-01") ([], 0) [["t", "", "c", "2026-01-01"]]).2) = ([], 0)
    rw [hfold, List.mergeSort_nil]
  · decide

/-- Claim C5 (amended): the summary total equals the sum of the per-rep
counts and equals the number of log records with a nonempty Rep cell and a
nonempty SaleDate cell equal to the queried date (records with an empty Rep
cell are skipped even when their sale date matches); the per-rep counts come
out sorted descending; the output is a permutation of the loop's counts map
`dailyCounts`, any two entries with equal counts keep their `dailyCounts`
order in the output (stability), and the keys of `dailyCounts` are the
counted reps in first-encountered order — together: ties are broken by
first-encountered order; and when no record is counted the summary is empty. -/
theorem claim_c5_summary (values : List Row) (dateIso : String) :
    (getDailySummary values dateIso).2 = sumCounts (getDailySummary values dateIso).1 ∧
    (getDailySummary values dateIso).2 =
      ((values.drop 1).filter (countedRow dateIso)).length ∧
    (getDailySummary values dateIso).1.Pairwise (fun a b => b.2 ≤ a.2) ∧
    List.Perm (getDailySummary values dateIso).1 (dailyCounts values dateIso) ∧
    (∀ a b : String × Nat, a.2 = b.2 →
      List.Sublist [a, b] (dailyCounts values dateIso) →
      List.Sublist [a, b] (getDailySummary values dateIso).1) ∧
    (dailyCounts values dateIso).map (fun e => e.1) =
      firstOccurAux
        (((values.drop 1).filter (countedRow dateIso)).map (fun r => jsOr (cell r 1) "")) [] ∧
    (((values.drop 1).filter (countedRow dateIso)).length = 0 →
      getDailySummary values dateIso = ([], 0)) := by
  have hkeys : (dailyCounts values dateIso).map (fun e => e.1) =
      firstOccurAux
        (((values.drop 1).filter (countedRow dateIso)).map (fun r => jsOr (cell r 1) "")) [] := by
    rw [dailyCounts]
    have hk := summary_fold_keys dateIso (values.drop 1) ([], 0)
    simpa using hk
  by_cases hlen : values.length ≤ 1
  · have hd : values.drop 1 = [] := by
      apply List.eq_nil_of_length_eq_zero
      rw [List.length_drop]
      omega
    have hnilc : dailyCounts values dateIso = [] := by
      rw [dailyCounts, hd]
      rfl
    rw [getDailySummary, if_pos hlen, hd]
    refine ⟨rfl, rfl, List.Pairwise.nil, ?_, ?_, ?_, fun _ => rfl⟩
    · rw [hnilc]
    · intro a b _ hs
      rw [hnilc] at hs
      have := List.sublist_nil.mp hs
      simp at this
    · rw [hnilc]
      rfl
  · obtain ⟨h1, h2, h3⟩ := summary_fold dateIso (values.drop 1) ([], 0)
    rw [show ((([], 0) : List (String × Nat) × Nat)).2 = 0 from rfl, Nat.zero_add] at h1
    rw [show sumCounts ((([], 0) : List (String × Nat) × Nat)).1 = 0 from rfl,
      Nat.zero_add] at h2
    have hout : getDailySummary values dateIso =
        (((values.drop 1).foldl (summaryStep dateIso) ([], 0)).1.mergeSort countLe,
          ((values.drop 1).foldl (summaryStep dateIso) ([], 0)).2) := by
      rw [getDailySummary, if_neg hlen]
    have hperm : List.Perm
        ((((values.drop 1).foldl (summaryStep dateIso) ([], 0)).1.mergeSort countLe).map
          (fun e => e.2))
        ((((values.drop 1).foldl (summaryStep dateIso) ([], 0)).1).map (fun e => e.2)) :=
      (List.mergeSort_perm _ _).map _
    refine ⟨?_, ?_, ?_, ?_, ?_, hkeys, ?_⟩
    · rw [hout]
      show ((values.drop 1).foldl (summaryStep dateIso) ([], 0)).2 = sumCounts _
      rw [sumCounts, hperm.sum_eq, h1, ← sumCounts, h2]
    · rw [hout]
      show ((values.drop 1).foldl (summaryStep dateIso) ([], 0)).2 = _
      rw [h1]
    · rw [hout]
      have hs := List.sorted_mergeSort countLe_trans countLe_total
        (((values.drop 1).foldl (summaryStep dateIso) ([], 0)).1)
      exact hs.imp (fun {a b} h => by simpa [countLe] using h)
    · rw [hout, dailyCounts]
      exact List.mergeSort_perm _ _
    · intro a b hab hs
      rw [dailyCounts] at hs
      rw [hout]
      have hpair : List.Pairwise (fun x y : String × Nat => countLe x y = true) [a, b] := by
        refine List.pairwise_cons.mpr ⟨?_, List.pairwise_singleton _ _⟩
        intro y hy
        rw [List.mem_singleton] at hy
        subst hy
        rw [countLe]
        simp [hab]
      exact List.sublist_mergeSort countLe_trans countLe_total hpair hs
    · intro hz
      rw [hout, h3 hz, List.mergeSort_nil]

/-- Claim C5 witness: the amended theorem at a concrete log where reps "A"
and "B" tie at one counted record each, "A" encountered first: the total is
2 and the tied pair keeps its first-encountered order in the output. -/
theorem claim_c5_witness :
    (getDailySummary [["h"], ["t", "A", "c", "2026-01-01"], ["t", "B", "c", "2026-01-01"],
        ["t", "A", "c", "2026-01-02"]] "2026-01-01").2 =
      sumCounts (getDailySummary [["h"], ["t", "A", "c", "2026-01-01"],
        ["t", "B", "c", "2026-01-01"], ["t", "A", "c", "2026-01-02"]] "2026-01-01").1 ∧
    (getDailySummary [["h"], ["t", "A", "c", "2026-01-01"], ["t", "B", "c", "2026-01-01"],
        ["t", "A", "c", "2026-01-02"]] "2026-01-01").2 = 2 ∧
    List.Sublist [(("A" : String), (1 : Nat)), ("B", 1)]
      (getDailySummary [["h"], ["t", "A", "c", "2026-01-01"], ["t", "B", "c", "2026-01-01"],
        ["t", "A", "c", "2026-01-02"]] "2026-01-01").1 := by
  obtain ⟨hsum, htot, _, _, hstable, _, _⟩ := claim_c5_summary
    [["h"], ["t", "A", "c", "2026-01-01"], ["t", "B", "c", "2026-01-01"],
      ["t", "A", "c", "2026-01-02"]] "2026-01-01"
  refine ⟨hsum, htot.trans (by decide), ?_⟩
  refine hstable ("A", 1) ("B", 1) rfl ?_
  show List.Sublist [(("A" : String), (1 : Nat)), ("B", 1)] [("A", 1), ("B", 1)]
  exact List.Sublist.refl _

/-! ### Witnesses for the hypothesis-bearing claim theorems -/

/-- Claim C6 witness: rep "Al" reports 1 on a day whose baseline is 2; the
delta (−1) is discarded and 1 is added to each counter. -/
theorem claim_c6_witness :
    updateLeaderboardRows [["Al", "2", "5", "5", "5", ""]] "Al" 1 "2026-01-02" "NOW" =
      [["Al", "1", "6", "6", "6", "NOW"]] := by
  have h := claim_c6_negative_delta [["Al", "2", "5", "5", "5", ""]] "Al" 1 "2026-01-02" "NOW"
    0 2 5 5 5 rfl (by decide) rfl rfl rfl rfl (by decide)
  exact h.trans (by decide)

/-- Claim C7 witness: a stale LastUpdate ("2026-01-01") on sale date
"2026-01-02" zeroes the baseline: the stored Today 9 is ignored and the
counters each grow by the reported 3. -/
theorem claim_c7_witness :
    updateLeaderboardRows [["Al", "9", "5", "5", "5", "2026-01-01T00:00:00.000Z"]] "Al" 3
      "2026-01-02" "NOW" = [["Al", "3", "8", "8", "8", "NOW"]] := by
  have h := (claim_c7_rollover_baseline [["Al", "9", "5", "5", "5", "2026-01-01T00:00:00.000Z"]]
    "Al" 3 "2026-01-02" "NOW" 0 5 5 5 rfl (by decide) rfl rfl rfl).1 (by decide) (by decide)
  exact h.trans (by decide)

/-- Claim C8 witness: "Bob" does not match the only existing row, so one new
row with all four counters equal to 7 is appended. -/
theorem claim_c8_witness :
    updateLeaderboardRows [["Cy", "1", "1", "1", "1", "x"]] "Bob" 7 "2026-01-02" "NOW" =
      [["Cy", "1", "1", "1", "1", "x"]] ++ [newRepRow "Bob" 7 "NOW"] ∧
    parsedCell (newRepRow "Bob" 7 "NOW") 4 = some 7 := by
  have h := claim_c8_new_rep [["Cy", "1", "1", "1", "1", "x"]] "Bob" 7 "2026-01-02" "NOW"
    (by decide)
  exact ⟨h.1, h.2.2.2.2.2.2.1⟩

/-- Claim C4 witness: the reset invoked on a Monday over one rep row. -/
theorem claim_c4_witness :
    cell ((resetRows [["Al", "2", "5", "07", "8", "x"]] (jsIsMonday "2024-01-01")
      "NOW").getD 0 []) 1 = "0" ∧
    (jsIsMonday "2024-01-01" = true →
      cell ((resetRows [["Al", "2", "5", "07", "8", "x"]] (jsIsMonday "2024-01-01")
        "NOW").getD 0 []) 2 = "0") ∧
    (jsIsMonday "2024-01-01" = false →
      parsedCell ((resetRows [["Al", "2", "5", "07", "8", "x"]] (jsIsMonday "2024-01-01")
        "NOW").getD 0 []) 2 = parsedCell (([["Al", "2", "5", "07", "8", "x"]] : List Row).getD 0 []) 2) ∧
    parsedCell ((resetRows [["Al", "2", "5", "07", "8", "x"]] (jsIsMonday "2024-01-01")
      "NOW").getD 0 []) 3 = parsedCell (([["Al", "2", "5", "07", "8", "x"]] : List Row).getD 0 []) 3 ∧
    parsedCell ((resetRows [["Al", "2", "5", "07", "8", "x"]] (jsIsMonday "2024-01-01")
      "NOW").getD 0 []) 4 = parsedCell (([["Al", "2", "5", "07", "8", "x"]] : List Row).getD 0 []) 4 ∧
    cell ((resetRows [["Al", "2", "5", "07", "8", "x"]] (jsIsMonday "2024-01-01")
      "NOW").getD 0 []) 5 = "NOW" ∧
    cell ((resetRows [["Al", "2", "5", "07", "8", "x"]] (jsIsMonday "2024-01-01")
      "NOW").getD 0 []) 0 = cell (([["Al", "2", "5", "07", "8", "x"]] : List Row).getD 0 []) 0 :=
  claim_c4_reset [["Al", "2", "5", "07", "8", "x"]] "2024-01-01" "NOW" 0 (by decide) (by decide)

/-- Claim C10 witness: a row with an empty Rep cell survives a reset intact. -/
theorem claim_c10_witness :
    (resetRows [["", "1", "2", "3", "4", "z"]] (jsIsMonday "2026-10-11") "NOW").getD 0 [] =
      ([["", "1", "2", "3", "4", "z"]] : List Row).getD 0 [] :=
  claim_c10_empty_rep_row [["", "1", "2", "3", "4", "z"]] "2026-10-11" "NOW" 0
    (by decide) (by decide)

end GroupMeBot
